import Mathlib

/-!
Shallow embedding of the scoring and admission-evaluation engine of the
vestibular-ufrgs-llm repository, together with theorems settling the frozen
claims about it.  Python floats are modelled as rationals, Python dicts as
association lists in insertion order, and Python tuple-of-None returns as
Option values.
-/

namespace Vestibular

/-- Embedding of a Python dict lookup (dict.get): first entry whose key
matches, in insertion order.  Keys of the dicts in this program are unique,
so first-match lookup coincides with dict semantics. -/
def procurar {β : Type} (k : String) : List (String × β) → Option β
  | [] => none
  | (a, b) :: rest => if a = k then some b else procurar k rest

/-- Per-subject reference statistics, from info.json.  Fields are read in the
source with dict.get defaults (media default 0, desvio_padrao default 1,
escores default empty list), so a record missing a field is modelled by a
record holding that default value. -/
structure Stats where
  media : ℚ
  desvio_padrao : ℚ
  escores : List (ℤ × ℚ)

/-- The record used for a subject absent from the statistics dict:
estatisticas.get(materia, {}) followed by the per-field get defaults. -/
def statsVazia : Stats := ⟨0, 1, []⟩

/-- calcular_ac_ufrgs.calcular_escore_padronizado: EP = ((EB - MD) / DP) * 100 + 500,
returning 500.0 when the standard deviation is exactly zero. -/
def calcular_escore_padronizado (escore_bruto media desvio_padrao : ℚ) : ℚ :=
  if desvio_padrao = 0 then 500
  else ((escore_bruto - media) / desvio_padrao) * 100 + 500

/-- The table scan in obter_ep_por_acertos: first escores entry whose acertos
field equals the requested count, if any. -/
def buscarEscore (acertos : ℤ) : List (ℤ × ℚ) → Option ℚ
  | [] => none
  | (a, ep) :: rest => if a = acertos then some ep else buscarEscore acertos rest

/-- The subject-statistics resolution shared verbatim by obter_ep_por_acertos
and by the standardization path of calcular_ac_para_curso: lingua_estrangeira
is looked up under the key ingles, a missing record falls back to the
dict.get defaults. -/
def statsDeMateria (estatisticas : List (String × Stats)) (materia : String) : Stats :=
  let materia_lookup := if materia = "lingua_estrangeira" then "ingles" else materia
  (procurar materia_lookup estatisticas).getD statsVazia

/-- calcular_media_harmonica_cursos.obter_ep_por_acertos: looks the count up in
the precomputed score table first; otherwise applies the linear formula when
desvio > 0, and returns 500.0 when it is not. -/
def obter_ep_por_acertos (estatisticas : List (String × Stats)) (materia : String)
    (acertos : ℤ) : ℚ :=
  let materia_stats := statsDeMateria estatisticas materia
  match buscarEscore acertos materia_stats.escores with
  | some ep => ep
  | none =>
      if materia_stats.desvio_padrao > 0 then
        ((acertos - materia_stats.media) / materia_stats.desvio_padrao) * 100 + 500
      else 500

/-- The per-subject standardization path inside calcular_ac_ufrgs.calcular_ac_para_curso
(lines 144-154): fetch the subject statistics (lingua_estrangeira under ingles)
and call calcular_escore_padronizado on mean and standard deviation; the
precomputed escores table of the record is never consulted on this path. -/
def ep_materia_ac (estatisticas : List (String × Stats)) (materia : String)
    (acertos : ℤ) : ℚ :=
  let stats := statsDeMateria estatisticas materia
  calcular_escore_padronizado acertos stats.media stats.desvio_padrao

/-- The abbreviation-to-subject table hard-coded in
calcular_media_harmonica_cursos.calcular_media_harmonica_ponderada. -/
def mapeamento_abrev : List (String × String) :=
  [("POR", "portugues_redacao"),
   ("LIT", "literatura"),
   ("GEO", "geografia"),
   ("HIS", "historia"),
   ("BIO", "biologia"),
   ("FIS", "fisica"),
   ("QUI", "quimica"),
   ("MAT", "matematica"),
   ("LIN", "lingua_estrangeira")]

/-- The aggregation loop of calcular_media_harmonica_ponderada, carrying the
two accumulators soma_pesos and soma_inversos; none models the early
return 0.0 taken when a contributing score is not positive. Weight keys equal
to total, and keys outside mapeamento_abrev, are skipped; a subject missing
from eps scores the neutral 500. -/
def mhLoop (eps : List (String × ℚ)) :
    List (String × ℚ) → ℚ → ℚ → Option (ℚ × ℚ)
  | [], soma_pesos, soma_inversos => some (soma_pesos, soma_inversos)
  | (abrev, peso) :: rest, soma_pesos, soma_inversos =>
      if abrev = "total" then mhLoop eps rest soma_pesos soma_inversos
      else
        match procurar abrev mapeamento_abrev with
        | none => mhLoop eps rest soma_pesos soma_inversos
        | some materia =>
            let ep := (procurar materia eps).getD 500
            if ep > 0 then
              mhLoop eps rest (soma_pesos + peso) (soma_inversos + peso / ep)
            else none

/-- calcular_media_harmonica_cursos.calcular_media_harmonica_ponderada:
MH = soma_pesos / soma_inversos when soma_inversos > 0, else 0.0, with an
early 0.0 when any contributing standardized score is not positive. -/
def calcular_media_harmonica_ponderada (eps : List (String × ℚ))
    (pesos : List (String × ℚ)) : ℚ :=
  match mhLoop eps pesos 0 0 with
  | none => 0
  | some (soma_pesos, soma_inversos) =>
      if soma_inversos > 0 then soma_pesos / soma_inversos else 0

/-- The aggregation loop inside calcular_ac_ufrgs.calcular_ac_para_curso
(lines 169-181): same accumulators, but weight keys are subject names
directly, and a non-positive score merely skips its own term (the if has no
else branch), so the loop always finishes. -/
def acLoop (escores_padronizados : List (String × ℚ)) :
    List (String × ℚ) → ℚ → ℚ → ℚ × ℚ
  | [], soma_pesos, soma_inversos => (soma_pesos, soma_inversos)
  | (materia_peso, peso) :: rest, soma_pesos, soma_inversos =>
      if materia_peso = "total" then acLoop escores_padronizados rest soma_pesos soma_inversos
      else
        let ep := (procurar materia_peso escores_padronizados).getD 500
        if ep > 0 then
          acLoop escores_padronizados rest (soma_pesos + peso) (soma_inversos + peso / ep)
        else acLoop escores_padronizados rest soma_pesos soma_inversos

/-- The AC value produced by the aggregation part of calcular_ac_para_curso:
ac = soma_pesos / soma_inversos if soma_inversos > 0 else 0. -/
def ac_agregacao (escores_padronizados : List (String × ℚ))
    (pesos_curso : List (String × ℚ)) : ℚ :=
  let par := acLoop escores_padronizados pesos_curso 0 0
  if par.2 > 0 then par.1 / par.2 else 0

/-! ## Correct-answer counting (contar_acertos_por_materia, both files) -/

/-- A candidate answer record after the identical extraction both files
perform: results_llm.get with PRIMEIRA_PROVA and SEGUNDA_PROVA, the iguais
lists defaulted to empty and their elements converted with int. -/
structure ResultadosLLM where
  iguais_p1 : List ℤ
  iguais_p2 : List ℤ

/-- Python membership test q in iguais. -/
def pertence (q : ℤ) (l : List ℤ) : Bool :=
  l.any (fun n => n = q)

/-- Per-subject tally of calcular_ac_ufrgs.contar_acertos_por_materia: the day
bucket of q is decided by any(1 <= num <= 60 for num in questoes if num == q)
over the whole subject question list. -/
def contarMateriaAc (r : ResultadosLLM) (questoes : List ℤ) : ℕ :=
  questoes.foldl
    (fun acc q =>
      if questoes.any (fun num => decide (num = q) && decide (1 ≤ num) && decide (num ≤ 60)) then
        if pertence q r.iguais_p1 then acc + 1 else acc
      else
        if pertence q r.iguais_p2 then acc + 1 else acc)
    0

/-- Per-subject tally of calcular_media_harmonica_cursos.contar_acertos_por_materia:
the day bucket of q is decided by the fixed ceiling q <= 60. -/
def contarMateriaCursos (r : ResultadosLLM) (questoes : List ℤ) : ℕ :=
  questoes.foldl
    (fun acc q =>
      if q ≤ 60 then
        if pertence q r.iguais_p1 then acc + 1 else acc
      else
        if pertence q r.iguais_p2 then acc + 1 else acc)
    0

/-- calcular_ac_ufrgs.contar_acertos_por_materia: one count per subject of the
question map, in its iteration order. -/
def contar_acertos_por_materia_ac (r : ResultadosLLM)
    (mapeamento_questoes : List (String × List ℤ)) : List (String × ℕ) :=
  mapeamento_questoes.map (fun par => (par.1, contarMateriaAc r par.2))

/-- calcular_media_harmonica_cursos.contar_acertos_por_materia. -/
def contar_acertos_por_materia_cursos (r : ResultadosLLM)
    (mapeamento_questoes : List (String × List ℤ)) : List (String × ℕ) :=
  mapeamento_questoes.map (fun par => (par.1, contarMateriaCursos r par.2))

/-! ## Question-to-subject map (mapear_questoes_por_materia, identical in
both files) -/

/-- One entry of a day's distribuicao list, with the question range already
split on the dash and the materia string already lowercased (the lower and
replace calls are string plumbing applied before the logic modelled here). -/
structure ItemDistribuicao where
  materia : String
  inicio : ℕ
  fim : ℕ

/-- The nine keys the mapeamento dict is initialized with. -/
def chavesMapeamento : List String :=
  ["portugues", "literatura", "matematica", "geografia", "historia",
   "fisica", "quimica", "biologia", "lingua_estrangeira"]

/-- Day-1 subject-name adjustment: lingua_portuguesa feeds portugues. -/
def ajustarMateriaDia1 (m : String) : String :=
  if m = "lingua_portuguesa" then "portugues" else m

/-- Day-2 subject-name adjustment: ingles and espanhol feed lingua_estrangeira. -/
def ajustarMateriaDia2 (m : String) : String :=
  if m = "ingles" ∨ m = "espanhol" then "lingua_estrangeira" else m

/-- Python list(range(inicio, fim + 1)): empty when inicio > fim. -/
def intervalo (inicio fim : ℕ) : List ℕ :=
  List.range' inicio (fim + 1 - inicio)

/-- mapeamento[materia].extend(questoes): append to the list stored at the
first matching key; none models the KeyError raised when the key is absent. -/
def estender (k : String) (qs : List ℕ) :
    List (String × List ℕ) → Option (List (String × List ℕ))
  | [] => none
  | (a, l) :: rest =>
      if a = k then some ((a, l ++ qs) :: rest)
      else (estender k qs rest).map (fun resto => (a, l) :: resto)

/-- The initial mapeamento: every key bound to the empty list. -/
def mapaInicial : List (String × List ℕ) :=
  chavesMapeamento.map (fun k => (k, []))

/-- One day's loop of mapear_questoes_por_materia: expand each range and
extend the adjusted subject's list, propagating a KeyError as none. -/
def processarDia (ajustar : String → String) :
    List ItemDistribuicao → List (String × List ℕ) → Option (List (String × List ℕ))
  | [], mapa => some mapa
  | item :: rest, mapa =>
      match estender (ajustar item.materia) (intervalo item.inicio item.fim) mapa with
      | none => none
      | some mapa2 => processarDia ajustar rest mapa2

/-- mapear_questoes_por_materia (identical in calcular_ac_ufrgs and
calcular_media_harmonica_cursos): day 1 then day 2 over the initial map. -/
def mapear_questoes_por_materia (dia1 dia2 : List ItemDistribuicao) :
    Option (List (String × List ℕ)) :=
  match processarDia ajustarMateriaDia1 dia1 mapaInicial with
  | none => none
  | some m1 => processarDia ajustarMateriaDia2 dia2 m1

/-! ## Program catalog matcher (verificar_aprovacao.mapear_curso_nota_corte)
and the verdict classification of verificar_aprovacao.main -/

/-- Python startswith on character lists. -/
def comecaCom : List Char → List Char → Bool
  | [], _ => true
  | _ :: _, [] => false
  | a :: resta, b :: restb => a = b && comecaCom resta restb

/-- Infix search on character lists: some suffix of the text starts with the
pattern. -/
def contemLista (sub : List Char) : List Char → Bool
  | [] => comecaCom sub []
  | c :: rest => comecaCom sub (c :: rest) || contemLista sub rest

/-- Embedding of the Python substring test sub in s. -/
def contem (sub s : String) : Bool :=
  contemLista sub.data s.data

/-- The hard-coded mapeamento_especial alias table of mapear_curso_nota_corte,
in source order; none is the explicit no-cutoff-available marker (Python None). -/
def mapeamento_especial : List (String × Option String) :=
  [("Administração (D)", some "Administração (Integral"),
   ("Administração (N)", some "Administração (Noturno"),
   ("Administração Púb/Soc (N)", some "Administração Pública e Social"),
   ("Agronomia", some "Agronomia (Integral)"),
   ("Arquitetura e Urbanismo", some "Arquitetura e Urbanismo"),
   ("Arquivologia (N)", some "Arquivologia"),
   ("Artes Visuais (B)", some "Artes Visuais (Bacharelado"),
   ("Artes Visuais (L)", some "Artes Visuais (Licenciatura"),
   ("Biblioteconomia", some "Biblioteconomia"),
   ("Biomedicina", some "Biomedicina"),
   ("Biotecnologia", some "Biotecnologia"),
   ("Ciências Atuariais", some "Ciências Atuariais"),
   ("Ciências B Bio Mar CLN", some "Ciências Biológicas (Bacharelado, Pólo Imbé)"),
   ("Ciências Biológicas (B)", some "Ciências Biológicas (Bacharelado, Campus do Vale)"),
   ("Ciências Biológicas (L)", some "Ciências Biológicas (Licenciatura"),
   ("Ciências Contábeis", some "Ciências Contábeis"),
   ("Ciências Econômicas (D)", some "Ciências Econômicas (Integral"),
   ("Ciências Econômicas (N)", some "Ciências Econômicas (Noturno"),
   ("Ciências Sociais (D)", some "Ciências Sociais (Integral, Campus do Vale)"),
   ("Ciências Sociais (N)", some "Ciências Sociais (Noturno, Campus do Vale)"),
   ("Computação", some "Ciência da Computação"),
   ("Dança", some "Dança"),
   ("Design Produto", some "Design de Produto"),
   ("Design Visual", some "Design Visual"),
   ("Direito (D)", some "Ciências Jurídicas e Sociais – Direito (Integral"),
   ("Direito (N)", some "Ciências Jurídicas e Sociais – Direito (Noturno"),
   ("Educação Física (B)", some "ABI – Educação Física"),
   ("Enfermagem", some "Enfermagem"),
   ("Engenharia Ambiental", some "Engenharia Ambiental"),
   ("Engenharia Cartográfica (N)", some "Engenharia Cartográfica"),
   ("Engenharia Civil", some "Engenharia Civil"),
   ("Engenharia Contr Automação", some "Engenharia de Controle e Automação"),
   ("Engenharia de Alimentos", some "Engenharia de Alimentos"),
   ("Engenharia de Computação", some "Engenharia de Computação"),
   ("Engenharia de Energia", some "Engenharia de Energia"),
   ("Engenharia de Materiais", some "Engenharia de Materiais"),
   ("Engenharia de Minas", some "Engenharia de Minas"),
   ("Engenharia de Produção", some "Engenharia de Produção"),
   ("Engenharia de Serviços", some "Engenharia de Serviços"),
   ("Engenharia Elétrica", some "Engenharia Elétrica"),
   ("Engenharia Física", some "Engenharia Física"),
   ("Engenharia Gest Energia CLN", some "Engenharia de Gestão de Energia"),
   ("Engenharia Hídrica", some "Engenharia Hídrica"),
   ("Engenharia Mecânica", some "Engenharia Mecânica"),
   ("Engenharia Metalúrgica", some "Engenharia Metalúrgica"),
   ("Engenharia Química", some "Engenharia Química"),
   ("Estatística", some "Estatística"),
   ("Farmácia", some "Farmácia"),
   ("Filosofia (B) (D)", some "Filosofia (Integral"),
   ("Filosofia (L) (N)", some "Filosofia (Noturno, Licenciatura"),
   ("Fisioterapia", some "Fisioterapia"),
   ("Fonoaudiologia", some "Fonoaudiologia"),
   ("Física (B)", some "Física (Integral, Campus do Vale)"),
   ("Física (L) (D)", some "Física (Licenciatura, Campus do Vale)"),
   ("Física (L) (N)", some "Física (Noturno, Licenciatura"),
   ("Física Astrofísica", some "Física (Integral, Campus do Vale)"),
   ("Geografia (D)", some "Geografia (Bacharelado, Campus do Vale)"),
   ("Geografia (L) CLN", some "Geografia (Noturno, Licenciatura, Campus Litoral Norte)"),
   ("Geografia (N)", some "Geografia (Noturno, Bacharelado"),
   ("Geologia", some "Geologia"),
   ("História (D)", some "História (Integral, Bacharelado"),
   ("História (N)", some "História (Noturno, Bacharelado"),
   ("História da Arte", some "História da Arte"),
   ("Inter Ciência Tecno", some "Interdisciplinar em Ciência e Tecnologia"),
   ("Jornalismo", some "Jornalismo"),
   ("Letras (B)", some "Letras (Bacharelado"),
   ("Letras (B) Libras", some "Letras (Licenciatura"),
   ("Música", none),
   ("Nutrição", some "Nutrição"),
   ("Odontologia (D)", some "Odontologia (Integral"),
   ("Odontologia (N)", some "Odontologia (Noturno"),
   ("Pedagogia (M)", some "Pedagogia (Matutino"),
   ("Pedagogia (N)", some "Pedagogia (Noturno"),
   ("Políticas Públicas", some "Políticas Públicas"),
   ("Psicologia (D)", some "Psicologia (Integral"),
   ("Psicologia (N)", some "Psicologia (Noturno"),
   ("Publicidade & Propaganda", some "Publicidade e Propaganda"),
   ("Química", some "Química (Integral"),
   ("Química (L) (N)", some "Química (Noturno, Licenciatura"),
   ("Química Industrial (I)", some "Química Industrial (Integral"),
   ("Química Industrial (N)", some "Química Industrial (Noturno"),
   ("Rel. Internacionais", some "Relações Internacionais"),
   ("Relações Públicas", some "Relações Públicas"),
   ("Saúde Coletiva", none),
   ("Serviço Social", none),
   ("Teatro", none),
   ("Teatro (L)", none),
   ("ZZ CODE", none),
   ("Zootecnia", none)]

/-- The search loop of mapear_curso_nota_corte over the cutoff dict: first
key, in iteration order, containing the pattern as a substring, with its
cutoff value. -/
def buscaNota (padrao : String) : List (String × ℚ) → Option (String × ℚ)
  | [] => none
  | (curso_completo, nota) :: rest =>
      if contem padrao curso_completo then some (curso_completo, nota)
      else buscaNota padrao rest

/-- verificar_aprovacao.mapear_curso_nota_corte: alias lookup in
mapeamento_especial (absent key and explicit None marker both fall to the
padrao is None early return, modelled as none), then substring search over
the cutoff table; (None, None) returns are modelled as none. -/
def mapear_curso_nota_corte (nome_curso_pesos : String)
    (notas_corte : List (String × ℚ)) : Option (String × ℚ) :=
  match procurar nome_curso_pesos mapeamento_especial with
  | none => none
  | some none => none
  | some (some padrao) => buscaNota padrao notas_corte

/-- The three admission buckets built by verificar_aprovacao.main. -/
inductive Veredito where
  | aprovado
  | reprovado
  | semNotaCorte
deriving DecidableEq

/-- The classification of one program in verificar_aprovacao.main lines
201-212: the Python truthiness test if curso_completo and nota_corte followed
by the comparison mh >= nota_corte; a falsy name or cutoff lands the program
in the sem_nota_corte bucket. -/
def classificar_curso (mh : ℚ) (curso : String)
    (notas_corte : List (String × ℚ)) : Veredito :=
  match mapear_curso_nota_corte curso notas_corte with
  | some (curso_completo, nota) =>
      if curso_completo ≠ "" ∧ nota ≠ 0 then
        if mh ≥ nota then .aprovado else .reprovado
      else .semNotaCorte
  | none => .semNotaCorte

/-! ## General lemmas about the embedded dict operations -/

theorem procurar_mem {β : Type} {k : String} {v : β} :
    ∀ {l : List (String × β)}, procurar k l = some v → (k, v) ∈ l := by
  intro l
  induction l with
  | nil => intro h; exact absurd h (by simp [procurar])
  | cons pr rest ih =>
      obtain ⟨a, b⟩ := pr
      intro h
      by_cases ha : a = k
      · subst ha
        simp [procurar] at h
        simp [h]
      · rw [procurar, if_neg ha] at h
        exact List.mem_cons_of_mem _ (ih h)

theorem procurar_map_valor {β γ : Type} (f : β → γ) (k : String)
    (l : List (String × β)) :
    procurar k (l.map (fun pr => (pr.1, f pr.2))) = (procurar k l).map f := by
  induction l with
  | nil => rfl
  | cons pr rest ih =>
      obtain ⟨a, b⟩ := pr
      by_cases ha : a = k <;> simp [procurar, ha, ih]

/-! ## C4: the std_dev = 0 edge of the two standardizers -/

/-- C4 (amended): calcular_escore_padronizado returns exactly 500 whenever the
standard deviation is 0, for any count and mean; obter_ep_por_acertos does so
whenever the resolved record has desvio_padrao = 0, provided its precomputed
score table holds no entry for the count (a table entry takes precedence and
is returned verbatim even then). -/
theorem escore_padronizado_desvio_zero :
    (∀ escore_bruto media : ℚ, calcular_escore_padronizado escore_bruto media 0 = 500) ∧
    (∀ (estatisticas : List (String × Stats)) (materia : String) (acertos : ℤ),
      buscarEscore acertos (statsDeMateria estatisticas materia).escores = none →
      (statsDeMateria estatisticas materia).desvio_padrao = 0 →
      obter_ep_por_acertos estatisticas materia acertos = 500) := by
  constructor
  · intro escore_bruto media
    simp [calcular_escore_padronizado]
  · intro estatisticas materia acertos htab hdp
    simp [obter_ep_por_acertos, htab, hdp]

/-- Witness for C4's amended theorem at concrete inputs. -/
theorem escore_padronizado_desvio_zero_instancia :
    calcular_escore_padronizado 7 10 0 = 500 ∧
    buscarEscore 3 (statsDeMateria [("matematica", ⟨10, 0, []⟩)] "matematica").escores = none ∧
    (statsDeMateria [("matematica", ⟨10, 0, []⟩)] "matematica").desvio_padrao = 0 ∧
    obter_ep_por_acertos [("matematica", ⟨10, 0, []⟩)] "matematica" 3 = 500 :=
  ⟨escore_padronizado_desvio_zero.1 7 10, by decide, by decide,
   escore_padronizado_desvio_zero.2 _ _ _ (by decide) (by decide)⟩

/-- C4 counterexample: with std_dev = 0 but a score-table entry for the count,
obter_ep_por_acertos returns the table value 777, not 500, so the claim as
stated fails for that implementation. -/
theorem obter_ep_desvio_zero_tabela :
    (Stats.desvio_padrao ⟨0, 0, [(3, 777)]⟩ = 0) ∧
    obter_ep_por_acertos [("matematica", ⟨0, 0, [(3, 777)]⟩)] "matematica" 3 = 777 ∧
    (777 : ℚ) ≠ 500 :=
  ⟨rfl, by decide, by decide⟩

/-! ## C5: table-takes-precedence and the path used by calcular_ac_para_curso -/

/-- Erase the precomputed score table of a statistics record, keeping mean and
standard deviation. -/
def apagarTabela (s : Stats) : Stats :=
  ⟨s.media, s.desvio_padrao, []⟩

/-- C5 (amended): obter_ep_por_acertos returns a score-table entry verbatim
when one matches the count, and otherwise applies the linear formula when the
standard deviation is positive; the standardization path used by
calcular_ac_para_curso, however, never consults the table: on statistics with
nonnegative standard deviations it coincides with obter_ep_por_acertos run on
the same records with their score tables emptied. -/
theorem obter_ep_caracterizacao :
    (∀ (estatisticas : List (String × Stats)) (materia : String) (acertos : ℤ) (ep : ℚ),
      buscarEscore acertos (statsDeMateria estatisticas materia).escores = some ep →
      obter_ep_por_acertos estatisticas materia acertos = ep) ∧
    (∀ (estatisticas : List (String × Stats)) (materia : String) (acertos : ℤ),
      buscarEscore acertos (statsDeMateria estatisticas materia).escores = none →
      (statsDeMateria estatisticas materia).desvio_padrao > 0 →
      obter_ep_por_acertos estatisticas materia acertos =
        ((acertos - (statsDeMateria estatisticas materia).media) /
          (statsDeMateria estatisticas materia).desvio_padrao) * 100 + 500) ∧
    (∀ (estatisticas : List (String × Stats)) (materia : String) (acertos : ℤ),
      (∀ pr ∈ estatisticas, 0 ≤ (Stats.desvio_padrao pr.2)) →
      ep_materia_ac estatisticas materia acertos =
        obter_ep_por_acertos
          (estatisticas.map (fun pr => (pr.1, apagarTabela pr.2)))
          materia acertos) := by
  refine ⟨?_, ?_, ?_⟩
  · intro estatisticas materia acertos ep htab
    simp [obter_ep_por_acertos, htab]
  · intro estatisticas materia acertos htab hdp
    simp [obter_ep_por_acertos, htab, hdp]
  · intro estatisticas materia acertos hpos
    have hmap : statsDeMateria
        (estatisticas.map (fun pr => (pr.1, apagarTabela pr.2))) materia =
        apagarTabela (statsDeMateria estatisticas materia) := by
      simp only [statsDeMateria, procurar_map_valor]
      cases procurar (if materia = "lingua_estrangeira" then "ingles" else materia)
        estatisticas with
      | none => rfl
      | some s => rfl
    have hdp : 0 ≤ (statsDeMateria estatisticas materia).desvio_padrao := by
      rcases hp : procurar (if materia = "lingua_estrangeira" then "ingles" else materia)
        estatisticas with _ | s
      · norm_num [statsDeMateria, hp, statsVazia]
      · simpa [statsDeMateria, hp] using hpos _ (procurar_mem hp)
    rw [obter_ep_por_acertos, hmap]
    rcases lt_or_eq_of_le hdp with hlt | heq
    · simp [ep_materia_ac, apagarTabela, calcular_escore_padronizado, buscarEscore,
        hlt, ne_of_gt hlt]
    · simp [ep_materia_ac, apagarTabela, calcular_escore_padronizado, buscarEscore, ← heq]

/-- Witness for C5's amended theorem at concrete inputs. -/
theorem obter_ep_caracterizacao_instancia :
    buscarEscore 3 (statsDeMateria [("matematica", ⟨0, 1, [(3, 777)]⟩)] "matematica").escores
      = some 777 ∧
    obter_ep_por_acertos [("matematica", ⟨0, 1, [(3, 777)]⟩)] "matematica" 3 = 777 ∧
    buscarEscore 20 (statsDeMateria [("matematica", ⟨10, 5, []⟩)] "matematica").escores = none ∧
    (statsDeMateria [("matematica", ⟨10, 5, []⟩)] "matematica").desvio_padrao > 0 ∧
    obter_ep_por_acertos [("matematica", ⟨10, 5, []⟩)] "matematica" 20 =
      (((20 : ℤ) - (statsDeMateria [("matematica", ⟨10, 5, []⟩)] "matematica").media) /
        (statsDeMateria [("matematica", ⟨10, 5, []⟩)] "matematica").desvio_padrao) * 100 + 500 ∧
    (∀ pr ∈ [("matematica", (⟨10, 5, [(3, 777)]⟩ : Stats))], 0 ≤ (Stats.desvio_padrao pr.2)) ∧
    ep_materia_ac [("matematica", ⟨10, 5, [(3, 777)]⟩)] "matematica" 20 =
      obter_ep_por_acertos
        ([("matematica", (⟨10, 5, [(3, 777)]⟩ : Stats))].map
          (fun pr => (pr.1, apagarTabela pr.2)))
        "matematica" 20 :=
  ⟨by decide, obter_ep_caracterizacao.1 _ _ _ _ (by decide),
   by decide, by decide, obter_ep_caracterizacao.2.1 _ _ _ (by decide) (by decide),
   by decide, obter_ep_caracterizacao.2.2 _ _ _ (by decide)⟩

/-- C5 counterexample: a record carrying the table entry (3, 777): the path of
calcular_ac_para_curso standardizes count 3 to the formula value 800 instead
of the table value 777, so table precedence does not hold on that path. -/
theorem ac_ignora_tabela_escores :
    buscarEscore 3 (statsDeMateria [("matematica", ⟨0, 1, [(3, 777)]⟩)] "matematica").escores
      = some 777 ∧
    ep_materia_ac [("matematica", ⟨0, 1, [(3, 777)]⟩)] "matematica" 3 = 800 ∧
    (800 : ℚ) ≠ 777 :=
  ⟨by decide,
   by simp [ep_materia_ac, statsDeMateria, statsVazia, procurar,
        calcular_escore_padronizado]; norm_num,
   by decide⟩

/-! ## Lemmas on the two aggregation loops -/

theorem mhLoop_none_de_ep_nao_positivo (eps : List (String × ℚ)) :
    ∀ (pesos : List (String × ℚ)) (sp si : ℚ),
      (∃ pr ∈ pesos, pr.1 ≠ "total" ∧ ∃ m, procurar pr.1 mapeamento_abrev = some m ∧
        (procurar m eps).getD 500 ≤ 0) →
      mhLoop eps pesos sp si = none := by
  intro pesos
  induction pesos with
  | nil =>
      intro sp si h
      simp at h
  | cons pr rest ih =>
      intro sp si h
      obtain ⟨a, peso⟩ := pr
      rcases h with ⟨q, hq, hne, m, hm, hle⟩
      rcases List.mem_cons.mp hq with heq | hmem
      · subst heq
        have hne' : a ≠ "total" := hne
        have hm' : procurar a mapeamento_abrev = some m := hm
        simp only [mhLoop, if_neg hne', hm']
        rw [if_neg (not_lt.mpr hle)]
      · by_cases ha : a = "total"
        · simp only [mhLoop, if_pos ha]
          exact ih _ _ ⟨q, hmem, hne, m, hm, hle⟩
        · cases hpm : procurar a mapeamento_abrev with
          | none =>
              simp only [mhLoop, if_neg ha, hpm]
              exact ih _ _ ⟨q, hmem, hne, m, hm, hle⟩
          | some m2 =>
              simp only [mhLoop, if_neg ha, hpm]
              by_cases hep : (procurar m2 eps).getD 500 > 0
              · rw [if_pos hep]
                exact ih _ _ ⟨q, hmem, hne, m, hm, hle⟩
              · rw [if_neg hep]

theorem mhLoop_todos_total (eps : List (String × ℚ)) :
    ∀ (pesos : List (String × ℚ)) (sp si : ℚ),
      (∀ pr ∈ pesos, pr.1 = "total") →
      mhLoop eps pesos sp si = some (sp, si) := by
  intro pesos
  induction pesos with
  | nil => intro sp si _; rfl
  | cons pr rest ih =>
      intro sp si h
      obtain ⟨a, peso⟩ := pr
      have ha : a = "total" := h (a, peso) (List.mem_cons_self _ _)
      simp only [mhLoop, if_pos ha]
      exact ih sp si (fun q hq => h q (List.mem_cons_of_mem _ hq))

theorem acLoop_todos_total (escores : List (String × ℚ)) :
    ∀ (pesos : List (String × ℚ)) (sp si : ℚ),
      (∀ pr ∈ pesos, pr.1 = "total") →
      acLoop escores pesos sp si = (sp, si) := by
  intro pesos
  induction pesos with
  | nil => intro sp si _; rfl
  | cons pr rest ih =>
      intro sp si h
      obtain ⟨a, peso⟩ := pr
      have ha : a = "total" := h (a, peso) (List.mem_cons_self _ _)
      simp only [acLoop, if_pos ha]
      exact ih sp si (fun q hq => h q (List.mem_cons_of_mem _ hq))

/-- A weight entry that actually contributes a term in the loop of
calcular_ac_para_curso: either the skipped total metadata key, or a key whose
score (with the 500 default) is positive. -/
def pesoAtivo (escores : List (String × ℚ)) (pr : String × ℚ) : Bool :=
  decide (pr.1 = "total") || decide (0 < (procurar pr.1 escores).getD 500)

theorem acLoop_filtrar (escores : List (String × ℚ)) :
    ∀ (pesos : List (String × ℚ)) (sp si : ℚ),
      acLoop escores (pesos.filter (pesoAtivo escores)) sp si =
        acLoop escores pesos sp si := by
  intro pesos
  induction pesos with
  | nil => intro sp si; rfl
  | cons pr rest ih =>
      intro sp si
      obtain ⟨a, peso⟩ := pr
      by_cases ha : a = "total"
      · have hf : pesoAtivo escores (a, peso) = true := by
          simp [pesoAtivo, ha]
        rw [List.filter_cons_of_pos hf]
        simp only [acLoop, if_pos ha]
        exact ih sp si
      · by_cases hep : (procurar a escores).getD 500 > 0
        · have hf : pesoAtivo escores (a, peso) = true := by
            simp [pesoAtivo, hep]
          rw [List.filter_cons_of_pos hf]
          simp only [acLoop, if_neg ha, if_pos hep]
          exact ih _ _
        · have hf : pesoAtivo escores (a, peso) = false := by
            simp [pesoAtivo, ha, hep]
          rw [List.filter_cons_of_neg (by simp [hf])]
          simp only [acLoop, if_neg ha, if_neg hep]
          exact ih sp si

theorem mhLoop_insere_desconhecida (eps : List (String × ℚ)) (k : String) (w : ℚ)
    (l2 : List (String × ℚ)) (hk : procurar k mapeamento_abrev = none) :
    ∀ (l1 : List (String × ℚ)) (sp si : ℚ),
      mhLoop eps (l1 ++ (k, w) :: l2) sp si = mhLoop eps (l1 ++ l2) sp si := by
  intro l1
  induction l1 with
  | nil =>
      intro sp si
      by_cases hk2 : k = "total"
      · simp only [List.nil_append, mhLoop, if_pos hk2]
      · simp only [List.nil_append, mhLoop, if_neg hk2, hk]
  | cons pr rest ih =>
      intro sp si
      obtain ⟨a, peso⟩ := pr
      by_cases ha : a = "total"
      · simp only [List.cons_append, mhLoop, if_pos ha]
        exact ih sp si
      · cases hpm : procurar a mapeamento_abrev with
        | none =>
            simp only [List.cons_append, mhLoop, if_neg ha, hpm]
            exact ih sp si
        | some m =>
            simp only [List.cons_append, mhLoop, if_neg ha, hpm]
            by_cases hep : (procurar m eps).getD 500 > 0
            · rw [if_pos hep, if_pos hep]
              exact ih _ _
            · rw [if_neg hep, if_neg hep]

theorem mhLoop_escala (eps : List (String × ℚ)) (c : ℚ) :
    ∀ (pesos : List (String × ℚ)) (sp si : ℚ),
      mhLoop eps (pesos.map (fun pr => (pr.1, c * pr.2))) (c * sp) (c * si) =
        (mhLoop eps pesos sp si).map (fun pr => (c * pr.1, c * pr.2)) := by
  intro pesos
  induction pesos with
  | nil => intro sp si; rfl
  | cons pr rest ih =>
      intro sp si
      obtain ⟨a, peso⟩ := pr
      by_cases ha : a = "total"
      · simp only [List.map_cons, mhLoop, if_pos ha]
        exact ih sp si
      · cases hpm : procurar a mapeamento_abrev with
        | none =>
            simp only [List.map_cons, mhLoop, if_neg ha, hpm]
            exact ih sp si
        | some m =>
            simp only [List.map_cons, mhLoop, if_neg ha, hpm]
            by_cases hep : (procurar m eps).getD 500 > 0
            · rw [if_pos hep, if_pos hep]
              have h1 : c * sp + c * peso = c * (sp + peso) := by ring
              have h2 : c * si + c * peso / (procurar m eps).getD 500 =
                  c * (si + peso / (procurar m eps).getD 500) := by ring
              rw [h1, h2]
              exact ih _ _
            · rw [if_neg hep, if_neg hep]
              rfl

theorem mhLoop_congr_eps (eps1 eps2 : List (String × ℚ))
    (h : ∀ m, (procurar m eps1).getD 500 = (procurar m eps2).getD 500) :
    ∀ (pesos : List (String × ℚ)) (sp si : ℚ),
      mhLoop eps1 pesos sp si = mhLoop eps2 pesos sp si := by
  intro pesos
  induction pesos with
  | nil => intro sp si; rfl
  | cons pr rest ih =>
      intro sp si
      obtain ⟨a, peso⟩ := pr
      by_cases ha : a = "total"
      · simp only [mhLoop, if_pos ha]
        exact ih sp si
      · cases hpm : procurar a mapeamento_abrev with
        | none =>
            simp only [mhLoop, if_neg ha, hpm]
            exact ih sp si
        | some m =>
            simp only [mhLoop, if_neg ha, hpm]
            rw [h m]
            by_cases hep : (procurar m eps2).getD 500 > 0
            · rw [if_pos hep, if_pos hep]
              exact ih _ _
            · rw [if_neg hep, if_neg hep]

theorem acLoop_congr_eps (eps1 eps2 : List (String × ℚ))
    (h : ∀ m, (procurar m eps1).getD 500 = (procurar m eps2).getD 500) :
    ∀ (pesos : List (String × ℚ)) (sp si : ℚ),
      acLoop eps1 pesos sp si = acLoop eps2 pesos sp si := by
  intro pesos
  induction pesos with
  | nil => intro sp si; rfl
  | cons pr rest ih =>
      intro sp si
      obtain ⟨a, peso⟩ := pr
      by_cases ha : a = "total"
      · simp only [acLoop, if_pos ha]
        exact ih sp si
      · simp only [acLoop, if_neg ha]
        rw [h a]
        by_cases hep : (procurar a eps2).getD 500 > 0
        · rw [if_pos hep, if_pos hep]
          exact ih _ _
        · rw [if_neg hep, if_neg hep]
          exact ih sp si

/-! ## C1: when the aggregations return 0.0 -/

/-- C1 (amended): calcular_media_harmonica_ponderada returns 0.0 whenever any
contributing standardized score is not positive, and both aggregations return
0.0 when the effective weight set (every key after excluding total) is empty;
the loop of calcular_ac_para_curso, however, does not abort on a non-positive
score: it skips exactly those terms, behaving as if they were filtered out of
the weight table. -/
theorem agregacao_zero_caracterizacao :
    (∀ (eps pesos : List (String × ℚ)),
      (∃ pr ∈ pesos, pr.1 ≠ "total" ∧ ∃ m, procurar pr.1 mapeamento_abrev = some m ∧
        (procurar m eps).getD 500 ≤ 0) →
      calcular_media_harmonica_ponderada eps pesos = 0) ∧
    (∀ (eps pesos : List (String × ℚ)), (∀ pr ∈ pesos, pr.1 = "total") →
      calcular_media_harmonica_ponderada eps pesos = 0 ∧ ac_agregacao eps pesos = 0) ∧
    (∀ (escores pesos : List (String × ℚ)),
      ac_agregacao escores (pesos.filter (pesoAtivo escores)) =
        ac_agregacao escores pesos) := by
  refine ⟨?_, ?_, ?_⟩
  · intro eps pesos h
    unfold calcular_media_harmonica_ponderada
    rw [mhLoop_none_de_ep_nao_positivo eps pesos 0 0 h]
  · intro eps pesos h
    constructor
    · unfold calcular_media_harmonica_ponderada
      rw [mhLoop_todos_total eps pesos 0 0 h]
      norm_num
    · unfold ac_agregacao
      rw [acLoop_todos_total eps pesos 0 0 h]
      norm_num
  · intro escores pesos
    unfold ac_agregacao
    rw [acLoop_filtrar]

/-- Witness for C1's amended theorem at concrete inputs. -/
theorem agregacao_zero_instancia :
    calcular_media_harmonica_ponderada [("matematica", -1)] [("MAT", 2)] = 0 ∧
    (calcular_media_harmonica_ponderada [] [("total", 7)] = 0 ∧
      ac_agregacao [] [("total", 7)] = 0) ∧
    ac_agregacao [("matematica", -1), ("historia", 600)]
        ([("matematica", 1), ("historia", 1)].filter
          (pesoAtivo [("matematica", -1), ("historia", 600)])) =
      ac_agregacao [("matematica", -1), ("historia", 600)]
        [("matematica", 1), ("historia", 1)] :=
  ⟨agregacao_zero_caracterizacao.1 _ _
      ⟨("MAT", 2), by decide, by decide, "matematica", by decide, by decide⟩,
   ⟨(agregacao_zero_caracterizacao.2.1 _ _ (by decide)).1,
    (agregacao_zero_caracterizacao.2.1 _ _ (by decide)).2⟩,
   agregacao_zero_caracterizacao.2.2 _ _⟩

/-- C1 counterexample: a contributing standardized score of -1 does not force
the loop of calcular_ac_para_curso to return 0.0: the term is skipped and the
remaining subject yields 600. -/
theorem ac_nao_aborta_ep_nao_positivo :
    (procurar "matematica" [("matematica", (-1 : ℚ)), ("historia", 600)]).getD 500 ≤ 0 ∧
    ac_agregacao [("matematica", -1), ("historia", 600)]
      [("matematica", 1), ("historia", 1)] = 600 ∧
    (600 : ℚ) ≠ 0 :=
  ⟨by decide, by simp [ac_agregacao, acLoop, procurar]; norm_num, by decide⟩

/-! ## C3: unknown abbreviation keys in a weight table -/

/-- C3 (amended): a weight key outside the known abbreviation table (and
different from total) does not raise any error: calcular_media_harmonica_ponderada
silently skips it, aggregating exactly as if the entry were absent. -/
theorem abreviacao_desconhecida_ignorada :
    ∀ (eps l1 l2 : List (String × ℚ)) (k : String) (w : ℚ),
      procurar k mapeamento_abrev = none →
      calcular_media_harmonica_ponderada eps (l1 ++ (k, w) :: l2) =
        calcular_media_harmonica_ponderada eps (l1 ++ l2) := by
  intro eps l1 l2 k w hk
  unfold calcular_media_harmonica_ponderada
  rw [mhLoop_insere_desconhecida eps k w l2 hk l1 0 0]

/-- Witness for C3's amended theorem at concrete inputs. -/
theorem abreviacao_desconhecida_ignorada_instancia :
    procurar "XYZ" mapeamento_abrev = none ∧
    calcular_media_harmonica_ponderada [("matematica", 600)] [("MAT", 2), ("XYZ", 3)] =
      calcular_media_harmonica_ponderada [("matematica", 600)] [("MAT", 2)] :=
  ⟨by decide,
   abreviacao_desconhecida_ignorada [("matematica", 600)] [("MAT", 2)] [] "XYZ" 3 (by decide)⟩

/-- C3 counterexample: with the unknown weight key XYZ present, aggregation
does not fail: it produces the ordinary numeric result 600 computed from the
known key MAT alone. -/
theorem abreviacao_desconhecida_sem_erro :
    procurar "XYZ" mapeamento_abrev = none ∧ ("XYZ" : String) ≠ "total" ∧
    calcular_media_harmonica_ponderada [("matematica", 600)] [("XYZ", 3), ("MAT", 2)] = 600 :=
  ⟨by decide, by decide,
   by simp [calcular_media_harmonica_ponderada, mhLoop, procurar, mapeamento_abrev]⟩

/-! ## C8: invariance of the harmonic mean under weight scaling -/

/-- C8 (confirmed): scaling every weight of a program's weight table by the
same positive constant leaves calcular_media_harmonica_ponderada unchanged. -/
theorem mh_invariante_sob_escala :
    ∀ (eps pesos : List (String × ℚ)) (c : ℚ), 0 < c →
      calcular_media_harmonica_ponderada eps (pesos.map (fun pr => (pr.1, c * pr.2))) =
        calcular_media_harmonica_ponderada eps pesos := by
  intro eps pesos c hc
  unfold calcular_media_harmonica_ponderada
  have h := mhLoop_escala eps c pesos 0 0
  rw [mul_zero] at h
  rw [h]
  cases hm : mhLoop eps pesos 0 0 with
  | none => rfl
  | some pr =>
      obtain ⟨sp, si⟩ := pr
      simp only [Option.map_some']
      by_cases hsi : si > 0
      · rw [if_pos hsi, if_pos (mul_pos hc hsi), mul_div_mul_left sp si (ne_of_gt hc)]
      · rw [if_neg hsi, if_neg (fun hpos => hsi ((mul_pos_iff_of_pos_left hc).mp hpos))]

/-- Witness for C8's theorem at concrete inputs. -/
theorem mh_invariante_sob_escala_instancia :
    (0 : ℚ) < 2 ∧
    calcular_media_harmonica_ponderada [("matematica", 600)]
        ([("MAT", 1), ("POR", 3)].map (fun pr => (pr.1, (2 : ℚ) * pr.2))) =
      calcular_media_harmonica_ponderada [("matematica", 600)] [("MAT", 1), ("POR", 3)] :=
  ⟨by norm_num, mh_invariante_sob_escala [("matematica", 600)] [("MAT", 1), ("POR", 3)] 2
    (by norm_num)⟩

/-! ## C9: missing subjects contribute the neutral score 500 -/

/-- C9 (confirmed): in both aggregations, a weighted subject with no entry in
the standardized-score set contributes exactly as if it were present with the
neutral score 500: extending the score set with (materia, 500) changes
neither result. -/
theorem materia_ausente_vale_500 :
    ∀ (eps pesos : List (String × ℚ)) (materia : String),
      procurar materia eps = none →
      calcular_media_harmonica_ponderada eps pesos =
          calcular_media_harmonica_ponderada ((materia, 500) :: eps) pesos ∧
        ac_agregacao eps pesos = ac_agregacao ((materia, 500) :: eps) pesos := by
  intro eps pesos materia hmiss
  have hcongr : ∀ m, (procurar m eps).getD 500 =
      (procurar m ((materia, 500) :: eps)).getD 500 := by
    intro m
    by_cases hm : materia = m
    · subst hm
      simp [procurar, hmiss]
    · simp [procurar, hm]
  constructor
  · unfold calcular_media_harmonica_ponderada
    rw [mhLoop_congr_eps eps ((materia, 500) :: eps) hcongr pesos 0 0]
  · unfold ac_agregacao
    rw [acLoop_congr_eps eps ((materia, 500) :: eps) hcongr pesos 0 0]

/-- Witness for C9's theorem at concrete inputs. -/
theorem materia_ausente_vale_500_instancia :
    procurar "matematica" ([] : List (String × ℚ)) = none ∧
    calcular_media_harmonica_ponderada [] [("MAT", 2)] =
        calcular_media_harmonica_ponderada [("matematica", 500)] [("MAT", 2)] ∧
      ac_agregacao [] [("MAT", 2)] = ac_agregacao [("matematica", 500)] [("MAT", 2)] :=
  ⟨rfl,
   (materia_ausente_vale_500 [] [("MAT", 2)] "matematica" rfl).1,
   (materia_ausente_vale_500 [] [("MAT", 2)] "matematica" rfl).2⟩

/-! ## C10: the two day-bucket tests agree on question numbers >= 1 -/

theorem teste_dia1_equivalente (questoes : List ℤ) (q : ℤ) (hq : q ∈ questoes)
    (h1 : ∀ n ∈ questoes, 1 ≤ n) :
    (questoes.any (fun num => decide (num = q) && decide (1 ≤ num) && decide (num ≤ 60)))
      = decide (q ≤ 60) := by
  rw [Bool.eq_iff_iff]
  simp only [List.any_eq_true, Bool.and_eq_true, decide_eq_true_eq]
  constructor
  · rintro ⟨n, _, ⟨hnq, _⟩, hn60⟩
    exact hnq ▸ hn60
  · intro hle
    exact ⟨q, hq, ⟨rfl, h1 q hq⟩, hle⟩

theorem contarMateria_equivalente (r : ResultadosLLM) (questoes : List ℤ)
    (h1 : ∀ n ∈ questoes, 1 ≤ n) :
    contarMateriaAc r questoes = contarMateriaCursos r questoes := by
  unfold contarMateriaAc contarMateriaCursos
  apply List.foldl_ext
  intro acc q hq
  rw [teste_dia1_equivalente questoes q hq h1]
  simp only [decide_eq_true_eq]

/-- C10 (confirmed): on any question map whose question numbers are all >= 1,
the day-bucket test of calcular_ac_ufrgs.contar_acertos_por_materia (an any
scan over the subject's own question list) decides exactly like the fixed
ceiling q <= 60 of calcular_media_harmonica_cursos.contar_acertos_por_materia,
so the two counting functions return identical per-subject count maps. -/
theorem contar_acertos_equivalentes :
    ∀ (r : ResultadosLLM) (mapeamento_questoes : List (String × List ℤ)),
      (∀ pr ∈ mapeamento_questoes, ∀ q ∈ pr.2, 1 ≤ q) →
      contar_acertos_por_materia_ac r mapeamento_questoes =
        contar_acertos_por_materia_cursos r mapeamento_questoes := by
  intro r mapeamento_questoes h
  unfold contar_acertos_por_materia_ac contar_acertos_por_materia_cursos
  apply List.map_congr_left
  intro pr hpr
  dsimp only
  rw [contarMateria_equivalente r pr.2 (h pr hpr)]

/-- Witness for C10's theorem at concrete inputs. -/
theorem contar_acertos_equivalentes_instancia :
    (∀ pr ∈ [("matematica", [(1 : ℤ), 61])], ∀ q ∈ pr.2, 1 ≤ q) ∧
    contar_acertos_por_materia_ac ⟨[1], [61]⟩ [("matematica", [1, 61])] =
      contar_acertos_por_materia_cursos ⟨[1], [61]⟩ [("matematica", [1, 61])] :=
  ⟨by decide, contar_acertos_equivalentes _ _ (by decide)⟩

/-! ## C7: characterization of the cutoff resolution -/

theorem buscaNota_none_sse (padrao : String) :
    ∀ notas : List (String × ℚ),
      buscaNota padrao notas = none ↔ ∀ pr ∈ notas, contem padrao pr.1 = false := by
  intro notas
  induction notas with
  | nil => simp [buscaNota]
  | cons pr rest ih =>
      obtain ⟨c, n⟩ := pr
      by_cases hc : contem padrao c = true
      · simp [buscaNota, hc]
      · simp [buscaNota, hc, ih, Bool.not_eq_true] at *

theorem buscaNota_some_sse (padrao : String) :
    ∀ (notas : List (String × ℚ)) (curso : String) (nota : ℚ),
      buscaNota padrao notas = some (curso, nota) ↔
        ∃ l1 l2, notas = l1 ++ (curso, nota) :: l2 ∧ contem padrao curso = true ∧
          ∀ pr ∈ l1, contem padrao pr.1 = false := by
  intro notas
  induction notas with
  | nil =>
      intro curso nota
      constructor
      · intro h
        exact absurd h (by simp [buscaNota])
      · rintro ⟨l1, l2, h, -, -⟩
        exact absurd h (by simp)
  | cons pr rest ih =>
      intro curso nota
      obtain ⟨c, n⟩ := pr
      by_cases hc : contem padrao c = true
      · rw [buscaNota, if_pos hc]
        constructor
        · intro h
          rw [Option.some.injEq, Prod.mk.injEq] at h
          obtain ⟨h1, h2⟩ := h
          subst h1
          subst h2
          exact ⟨[], rest, rfl, hc, by simp⟩
        · rintro ⟨l1, l2, heq, hcur, hall⟩
          cases l1 with
          | nil =>
              simp only [List.nil_append, List.cons.injEq, Prod.mk.injEq] at heq
              obtain ⟨⟨h1, h2⟩, -⟩ := heq
              rw [h1, h2]
          | cons p l1b =>
              rw [List.cons_append, List.cons.injEq] at heq
              obtain ⟨hp, -⟩ := heq
              have hfalse := hall p (List.mem_cons_self _ _)
              rw [← hp] at hfalse
              rw [hfalse] at hc
              exact absurd hc (by simp)
      · have hcf : contem padrao c = false := by
          simpa [Bool.not_eq_true] using hc
        rw [buscaNota, if_neg hc, ih curso nota]
        constructor
        · rintro ⟨l1, l2, heq, hcur, hall⟩
          refine ⟨(c, n) :: l1, l2, by rw [List.cons_append, heq], hcur, ?_⟩
          intro p hp
          rcases List.mem_cons.mp hp with hpeq | hpmem
          · rw [hpeq]
            exact hcf
          · exact hall p hpmem
        · rintro ⟨l1, l2, heq, hcur, hall⟩
          cases l1 with
          | nil =>
              simp only [List.nil_append, List.cons.injEq, Prod.mk.injEq] at heq
              obtain ⟨⟨h1, -⟩, -⟩ := heq
              rw [h1] at hcf
              rw [hcur] at hcf
              exact absurd hcf (by simp)
          | cons p l1b =>
              rw [List.cons_append, List.cons.injEq] at heq
              obtain ⟨-, htl⟩ := heq
              exact ⟨l1b, l2, htl, hcur,
                fun q hq => hall q (List.mem_cons_of_mem _ hq)⟩

/-- C7 (confirmed): mapear_curso_nota_corte returns the absent value in
exactly three situations: the short name is not a key of the alias table, the
alias table maps it to the explicit unavailable marker, or no cutoff-table
key contains the resolved alias as a substring; otherwise it returns the
first cutoff-table entry, in iteration order, whose key contains the alias,
together with that entry's cutoff value. -/
theorem mapear_curso_caracterizacao :
    ∀ (nome : String) (notas_corte : List (String × ℚ)),
      (mapear_curso_nota_corte nome notas_corte = none ↔
        procurar nome mapeamento_especial = none ∨
        procurar nome mapeamento_especial = some none ∨
        ∃ padrao, procurar nome mapeamento_especial = some (some padrao) ∧
          ∀ pr ∈ notas_corte, contem padrao pr.1 = false) ∧
      (∀ (curso : String) (nota : ℚ),
        mapear_curso_nota_corte nome notas_corte = some (curso, nota) ↔
        ∃ padrao l1 l2, procurar nome mapeamento_especial = some (some padrao) ∧
          notas_corte = l1 ++ (curso, nota) :: l2 ∧ contem padrao curso = true ∧
          ∀ pr ∈ l1, contem padrao pr.1 = false) := by
  intro nome notas_corte
  unfold mapear_curso_nota_corte
  cases hp : procurar nome mapeamento_especial with
  | none =>
      constructor
      · simp
      · intro curso nota
        constructor
        · intro h
          exact absurd h (by simp)
        · rintro ⟨padrao, l1, l2, hpp, -⟩
          exact absurd hpp (by simp)
  | some op =>
      cases op with
      | none =>
          constructor
          · simp
          · intro curso nota
            constructor
            · intro h
              exact absurd h (by simp)
            · rintro ⟨padrao, l1, l2, hpp, -⟩
              exact absurd hpp (by simp)
      | some padrao =>
          constructor
          · rw [buscaNota_none_sse]
            constructor
            · intro h
              exact Or.inr (Or.inr ⟨padrao, rfl, h⟩)
            · rintro (h | h | ⟨padrao2, hpp, h⟩)
              · exact absurd h (by simp)
              · exact absurd h (by simp)
              · rw [Option.some.injEq, Option.some.injEq] at hpp
                rw [hpp]
                exact h
          · intro curso nota
            rw [buscaNota_some_sse]
            constructor
            · rintro ⟨l1, l2, heq, hcur, hall⟩
              exact ⟨padrao, l1, l2, rfl, heq, hcur, hall⟩
            · rintro ⟨padrao2, l1, l2, hpp, heq, hcur, hall⟩
              rw [Option.some.injEq, Option.some.injEq] at hpp
              rw [hpp]
              exact ⟨l1, l2, heq, hcur, hall⟩

/-! ## C6: the admitted / rejected / no-cutoff partition -/

/-- C6 (amended): a program is classified admitted exactly when a cutoff is
resolved with a non-empty canonical name and a nonzero value and the score is
at least that value; rejected exactly when such a cutoff is resolved and the
score is below it; and put in the no-cutoff bucket exactly when no cutoff is
resolvable or the resolved name is empty or the resolved cutoff equals 0 (the
Python truthiness test of verificar_aprovacao.main); the three buckets stay
mutually exclusive and exhaustive. -/
theorem classificar_caracterizacao :
    ∀ (mh : ℚ) (curso : String) (notas_corte : List (String × ℚ)),
      (classificar_curso mh curso notas_corte = Veredito.aprovado ↔
        ∃ nome nota, mapear_curso_nota_corte curso notas_corte = some (nome, nota) ∧
          nome ≠ "" ∧ nota ≠ 0 ∧ nota ≤ mh) ∧
      (classificar_curso mh curso notas_corte = Veredito.reprovado ↔
        ∃ nome nota, mapear_curso_nota_corte curso notas_corte = some (nome, nota) ∧
          nome ≠ "" ∧ nota ≠ 0 ∧ mh < nota) ∧
      (classificar_curso mh curso notas_corte = Veredito.semNotaCorte ↔
        (mapear_curso_nota_corte curso notas_corte = none ∨
          ∃ nome nota, mapear_curso_nota_corte curso notas_corte = some (nome, nota) ∧
            (nome = "" ∨ nota = 0))) := by
  intro mh curso notas_corte
  unfold classificar_curso
  cases hr : mapear_curso_nota_corte curso notas_corte with
  | none => simp
  | some pr =>
      obtain ⟨nome, nota⟩ := pr
      by_cases h1 : nome = ""
      · simp [h1]
        exact ⟨"", nota, ⟨rfl, rfl⟩, Or.inl rfl⟩
      · by_cases h2 : nota = 0
        · simp [h1, h2]
          exact ⟨nome, 0, ⟨rfl, rfl⟩, Or.inr rfl⟩
        · by_cases h3 : mh ≥ nota
          · simp [h1, h2, h3, not_lt.mpr h3]
            exact ⟨nome, nota, ⟨rfl, rfl⟩, h1, h2, h3⟩
          · simp [h1, h2, h3, lt_of_not_ge h3, not_le.mp h3]
            exact ⟨nome, nota, ⟨rfl, rfl⟩, h1, h2, lt_of_not_ge h3⟩

/-- C6 counterexample: the cutoff table resolves Agronomia to the entry with
cutoff 0, and the candidate's score 500 is at least that cutoff, yet the
truthiness test of verificar_aprovacao.main classifies the program into the
no-cutoff bucket instead of admitted. -/
theorem corte_zero_classificado_sem_nota :
    mapear_curso_nota_corte "Agronomia" [("Agronomia (Integral)", 0)]
      = some ("Agronomia (Integral)", 0) ∧
    (0 : ℚ) ≤ 500 ∧
    classificar_curso 500 "Agronomia" [("Agronomia (Integral)", 0)]
      = Veredito.semNotaCorte :=
  ⟨by decide, by decide, by decide⟩

/-! ## C2: what mapear_questoes_por_materia actually builds -/

/-- The entries of a day after subject-name adjustment, in processing order. -/
def entradasDe (ajustar : String → String) (items : List ItemDistribuicao) :
    List (String × ℕ × ℕ) :=
  items.map (fun it => (ajustar it.materia, it.inicio, it.fim))

/-- Both days' adjusted entries, in processing order. -/
def entradasAjustadas (dia1 dia2 : List ItemDistribuicao) : List (String × ℕ × ℕ) :=
  entradasDe ajustarMateriaDia1 dia1 ++ entradasDe ajustarMateriaDia2 dia2

/-- Concatenation of the expanded ranges of the entries of one subject, in
processing order. -/
def questoesDe (k : String) : List (String × ℕ × ℕ) → List ℕ
  | [] => []
  | (m, a, b) :: rest =>
      if m = k then intervalo a b ++ questoesDe k rest else questoesDe k rest

theorem questoesDe_append (k : String) (e1 e2 : List (String × ℕ × ℕ)) :
    questoesDe k (e1 ++ e2) = questoesDe k e1 ++ questoesDe k e2 := by
  induction e1 with
  | nil => rfl
  | cons e rest ih =>
      obtain ⟨m, a, b⟩ := e
      by_cases hm : m = k
      · simp [questoesDe, hm, ih]
      · simp [questoesDe, hm, ih]

theorem mem_questoesDe (k : String) (q : ℕ) :
    ∀ entradas : List (String × ℕ × ℕ),
      q ∈ questoesDe k entradas ↔
        ∃ e ∈ entradas, e.1 = k ∧ q ∈ intervalo e.2.1 e.2.2 := by
  intro entradas
  induction entradas with
  | nil => simp [questoesDe]
  | cons e rest ih =>
      obtain ⟨m, a, b⟩ := e
      by_cases hm : m = k
      · rw [questoesDe, if_pos hm, List.mem_append, ih]
        constructor
        · rintro (hq | ⟨e2, he2, hk2, hq⟩)
          · exact ⟨(m, a, b), List.mem_cons_self _ _, hm, hq⟩
          · exact ⟨e2, List.mem_cons_of_mem _ he2, hk2, hq⟩
        · rintro ⟨e2, he2, hk2, hq⟩
          rcases List.mem_cons.mp he2 with heq | hmem
          · subst heq
            exact Or.inl hq
          · exact Or.inr ⟨e2, hmem, hk2, hq⟩
      · rw [questoesDe, if_neg hm, ih]
        constructor
        · rintro ⟨e2, he2, hk2, hq⟩
          exact ⟨e2, List.mem_cons_of_mem _ he2, hk2, hq⟩
        · rintro ⟨e2, he2, hk2, hq⟩
          rcases List.mem_cons.mp he2 with heq | hmem
          · subst heq
            exact absurd hk2 hm
          · exact ⟨e2, hmem, hk2, hq⟩

theorem estender_de_mem (k : String) (qs : List ℕ) :
    ∀ mapa : List (String × List ℕ), k ∈ mapa.map Prod.fst →
      ∃ mapa2, estender k qs mapa = some mapa2 := by
  intro mapa
  induction mapa with
  | nil => simp
  | cons pr rest ih =>
      obtain ⟨a, l⟩ := pr
      intro hk
      by_cases ha : a = k
      · exact ⟨(a, l ++ qs) :: rest, by simp [estender, ha]⟩
      · have hk2 : k ∈ rest.map Prod.fst := by
          rw [List.map_cons] at hk
          rcases List.mem_cons.mp hk with hak | hmem
          · exact absurd hak.symm ha
          · exact hmem
        obtain ⟨m2, hm2⟩ := ih hk2
        exact ⟨(a, l) :: m2, by simp [estender, ha, hm2]⟩

theorem estender_chaves (k : String) (qs : List ℕ) :
    ∀ mapa mapa2, estender k qs mapa = some mapa2 →
      mapa2.map Prod.fst = mapa.map Prod.fst := by
  intro mapa
  induction mapa with
  | nil =>
      intro m2 h
      exact absurd h (by simp [estender])
  | cons pr rest ih =>
      obtain ⟨a, l⟩ := pr
      intro m2 h
      by_cases ha : a = k
      · simp only [estender, if_pos ha, Option.some.injEq] at h
        subst h
        simp
      · simp only [estender, if_neg ha] at h
        rw [Option.map_eq_some'] at h
        obtain ⟨r2, hr2, hm2⟩ := h
        subst hm2
        simp [ih r2 hr2]

theorem estender_procurar (k : String) (qs : List ℕ) :
    ∀ mapa mapa2, estender k qs mapa = some mapa2 →
      ∀ j, procurar j mapa2 =
        if j = k then (procurar j mapa).map (fun l => l ++ qs)
        else procurar j mapa := by
  intro mapa
  induction mapa with
  | nil =>
      intro m2 h
      exact absurd h (by simp [estender])
  | cons pr rest ih =>
      obtain ⟨a, l⟩ := pr
      intro m2 h j
      by_cases ha : a = k
      · simp only [estender, if_pos ha, Option.some.injEq] at h
        subst h
        subst ha
        by_cases hj : j = a
        · subst hj
          simp [procurar]
        · have haj : a ≠ j := fun he => hj he.symm
          simp [procurar, haj, hj]
      · simp only [estender, if_neg ha] at h
        rw [Option.map_eq_some'] at h
        obtain ⟨r2, hr2, hm2⟩ := h
        subst hm2
        by_cases haj : a = j
        · subst haj
          have hjk : a ≠ k := ha
          simp [procurar, hjk]
        · simp [procurar, haj, ih r2 hr2 j]

theorem processarDia_spec (ajustar : String → String) :
    ∀ (items : List ItemDistribuicao) (mapa : List (String × List ℕ)),
      (∀ it ∈ items, ajustar it.materia ∈ mapa.map Prod.fst) →
      ∃ mapa2, processarDia ajustar items mapa = some mapa2 ∧
        mapa2.map Prod.fst = mapa.map Prod.fst ∧
        ∀ j, procurar j mapa2 =
          (procurar j mapa).map
            (fun l => l ++ questoesDe j (entradasDe ajustar items)) := by
  intro items
  induction items with
  | nil =>
      intro mapa _
      refine ⟨mapa, rfl, rfl, ?_⟩
      intro j
      cases procurar j mapa with
      | none => rfl
      | some l => simp [entradasDe, questoesDe]
  | cons item rest ih =>
      intro mapa h
      have hk : ajustar item.materia ∈ mapa.map Prod.fst :=
        h item (List.mem_cons_self _ _)
      obtain ⟨m2, hm2⟩ := estender_de_mem _ (intervalo item.inicio item.fim) mapa hk
      have hkeys := estender_chaves _ _ mapa m2 hm2
      have hrest : ∀ it ∈ rest, ajustar it.materia ∈ m2.map Prod.fst := by
        intro it hit
        rw [hkeys]
        exact h it (List.mem_cons_of_mem _ hit)
      obtain ⟨mapa3, hp3, hkeys3, hlook3⟩ := ih m2 hrest
      refine ⟨mapa3, ?_, by rw [hkeys3, hkeys], ?_⟩
      · simp only [processarDia, hm2]
        exact hp3
      · intro j
        rw [hlook3 j, estender_procurar _ _ mapa m2 hm2 j]
        by_cases hj : j = ajustar item.materia
        · rw [if_pos hj]
          cases procurar j mapa with
          | none => rfl
          | some l =>
              simp only [Option.map_some', Option.some.injEq, List.append_assoc]
              congr 1
              simp [entradasDe, questoesDe, ← hj]
        · rw [if_neg hj]
          cases procurar j mapa with
          | none => rfl
          | some l =>
              simp only [Option.map_some', Option.some.injEq]
              congr 1
              simp [entradasDe, questoesDe, Ne.symm hj]

theorem chaves_mapa_inicial : mapaInicial.map Prod.fst = chavesMapeamento := by
  decide

theorem procurar_mapa_inicial (j : String) :
    procurar j mapaInicial = if j ∈ chavesMapeamento then some [] else none := by
  have h : ∀ ks : List String,
      procurar j (ks.map (fun k => (k, ([] : List ℕ)))) =
        if j ∈ ks then some [] else none := by
    intro ks
    induction ks with
    | nil => simp [procurar]
    | cons a rest ih =>
        by_cases ha : a = j
        · simp [procurar, ha]
        · simp [procurar, ha, ih, Ne.symm ha]
  exact h chavesMapeamento

theorem mapear_spec (dia1 dia2 : List ItemDistribuicao)
    (h1 : ∀ it ∈ dia1, ajustarMateriaDia1 it.materia ∈ chavesMapeamento)
    (h2 : ∀ it ∈ dia2, ajustarMateriaDia2 it.materia ∈ chavesMapeamento) :
    ∃ mapa, mapear_questoes_por_materia dia1 dia2 = some mapa ∧
      ∀ j, procurar j mapa =
        if j ∈ chavesMapeamento
        then some (questoesDe j (entradasAjustadas dia1 dia2)) else none := by
  obtain ⟨m1, hp1, hk1, hl1⟩ := processarDia_spec ajustarMateriaDia1 dia1 mapaInicial
    (by
      intro it hit
      rw [chaves_mapa_inicial]
      exact h1 it hit)
  obtain ⟨m2, hp2, hk2, hl2⟩ := processarDia_spec ajustarMateriaDia2 dia2 m1
    (by
      intro it hit
      rw [hk1, chaves_mapa_inicial]
      exact h2 it hit)
  refine ⟨m2, ?_, ?_⟩
  · simp only [mapear_questoes_por_materia, hp1]
    exact hp2
  · intro j
    rw [hl2 j, hl1 j, procurar_mapa_inicial j]
    by_cases hj : j ∈ chavesMapeamento
    · rw [if_pos hj, if_pos hj]
      simp [entradasAjustadas, questoesDe_append]
    · rw [if_neg hj, if_neg hj]
      rfl

/-- C2 (amended): building the question map performs no range or overlap
validation and raises no error for them: an entry with start > end
contributes an empty range and an overlapping question is assigned to every
claiming subject; the build can fail only on an unknown adjusted subject name
(a Python KeyError); on every well-formed structure, with known subject names
and ranges of different subjects disjoint, it succeeds and assigns each
covered question number to exactly one subject. -/
theorem mapa_questoes_bem_formado :
    ∀ (dia1 dia2 : List ItemDistribuicao),
      (∀ it ∈ dia1, ajustarMateriaDia1 it.materia ∈ chavesMapeamento) →
      (∀ it ∈ dia2, ajustarMateriaDia2 it.materia ∈ chavesMapeamento) →
      (∀ e1 ∈ entradasAjustadas dia1 dia2, ∀ e2 ∈ entradasAjustadas dia1 dia2,
        e1.1 ≠ e2.1 → ∀ q ∈ intervalo e1.2.1 e1.2.2, q ∉ intervalo e2.2.1 e2.2.2) →
      ∃ mapa, mapear_questoes_por_materia dia1 dia2 = some mapa ∧
        ∀ q, (∃ e ∈ entradasAjustadas dia1 dia2, q ∈ intervalo e.2.1 e.2.2) →
          ∃ k, (∃ l, procurar k mapa = some l ∧ q ∈ l) ∧
            ∀ k2 l2, procurar k2 mapa = some l2 → q ∈ l2 → k2 = k := by
  intro dia1 dia2 h1 h2 hdisj
  obtain ⟨mapa, hm, hlook⟩ := mapear_spec dia1 dia2 h1 h2
  have hchaves : ∀ e ∈ entradasAjustadas dia1 dia2, e.1 ∈ chavesMapeamento := by
    intro e he
    rcases List.mem_append.mp he with hd | hd
    · obtain ⟨it, hit, rfl⟩ := List.mem_map.mp hd
      exact h1 it hit
    · obtain ⟨it, hit, rfl⟩ := List.mem_map.mp hd
      exact h2 it hit
  refine ⟨mapa, hm, ?_⟩
  rintro q ⟨e, he, hq⟩
  refine ⟨e.1, ⟨questoesDe e.1 (entradasAjustadas dia1 dia2), ?_, ?_⟩, ?_⟩
  · rw [hlook e.1, if_pos (hchaves e he)]
  · exact (mem_questoesDe e.1 q _).mpr ⟨e, he, rfl, hq⟩
  · intro k2 l2 hk2 hq2
    by_cases hmem : k2 ∈ chavesMapeamento
    · rw [hlook k2, if_pos hmem, Option.some.injEq] at hk2
      subst hk2
      obtain ⟨e2, he2, he2k, hq2e⟩ := (mem_questoesDe k2 q _).mp hq2
      by_contra hne
      have hne2 : e2.1 ≠ e.1 := by
        rw [he2k]
        exact hne
      exact absurd hq (hdisj e2 he2 e he hne2 q hq2e)
    · rw [hlook k2, if_neg hmem] at hk2
      exact absurd hk2 (by simp)

/-- Witness for C2's amended theorem at a concrete well-formed structure. -/
theorem mapa_questoes_bem_formado_instancia :
    (∀ it ∈ [ItemDistribuicao.mk "matematica" 1 2],
      ajustarMateriaDia1 it.materia ∈ chavesMapeamento) ∧
    (∀ it ∈ [ItemDistribuicao.mk "ingles" 61 61],
      ajustarMateriaDia2 it.materia ∈ chavesMapeamento) ∧
    (∀ e1 ∈ entradasAjustadas [⟨"matematica", 1, 2⟩] [⟨"ingles", 61, 61⟩],
      ∀ e2 ∈ entradasAjustadas [⟨"matematica", 1, 2⟩] [⟨"ingles", 61, 61⟩],
      e1.1 ≠ e2.1 → ∀ q ∈ intervalo e1.2.1 e1.2.2, q ∉ intervalo e2.2.1 e2.2.2) ∧
    (∃ mapa, mapear_questoes_por_materia [⟨"matematica", 1, 2⟩] [⟨"ingles", 61, 61⟩]
        = some mapa ∧
      ∀ q, (∃ e ∈ entradasAjustadas [⟨"matematica", 1, 2⟩] [⟨"ingles", 61, 61⟩],
          q ∈ intervalo e.2.1 e.2.2) →
        ∃ k, (∃ l, procurar k mapa = some l ∧ q ∈ l) ∧
          ∀ k2 l2, procurar k2 mapa = some l2 → q ∈ l2 → k2 = k) :=
  ⟨by decide, by decide, by decide,
   mapa_questoes_bem_formado _ _ (by decide) (by decide) (by decide)⟩

/-- C2 counterexample: a malformed range (start 5 > end 3) does not make the
build fail: it returns the map with matematica bound to the empty list; and a
question (number 2) claimed by two subjects raises nothing either: it is
assigned to both matematica and fisica. -/
theorem mapa_questoes_sem_validacao :
    mapear_questoes_por_materia [⟨"matematica", 5, 3⟩] [] = some mapaInicial ∧
    mapear_questoes_por_materia [⟨"matematica", 1, 2⟩, ⟨"fisica", 2, 3⟩] []
      = some [("portugues", []), ("literatura", []), ("matematica", [1, 2]),
              ("geografia", []), ("historia", []), ("fisica", [2, 3]),
              ("quimica", []), ("biologia", []), ("lingua_estrangeira", [])] :=
  ⟨by decide, by decide⟩

end Vestibular
